import Mathlib

/-!
Verification of the CHIP-8 interpreter core (`src/cpu.rs`, `src/mem.rs`,
`src/chip8.rs`) against its natural-language specification.

The Rust code is shallowly embedded: machine integers become `Nat` with
explicit masking / `% 2 ^ w` where the Rust type performs wraparound
(`u8`, `u16`), the signed `i32` subtraction becomes `Int`, and every
Rust `panic!` / array-bounds / integer-underflow fault becomes an
`Except Fault` error.  Arrays (`memory`, `stack`, `graphics`, the
register file) are embedded as total functions `Nat → Nat` together with
the explicit bounds checks that Rust's indexing performs at every access
site; access sites whose index is a 4-bit nibble (always `< 16`) cannot
fault and are embedded as plain reads/writes.
-/

namespace Knocket

/-- The run-time faults (Rust panics) the core can raise:
    `segmentationFault` is the explicit `panic!("Segmentation fault")` in
    `Mem::store`; `registerGuardPanic` is the explicit guard panic in
    `Cpu::set_register_value`; the rest are array-bounds or integer
    underflow panics at the indicated sites. -/
inductive Fault where
  | memIndexOutOfBounds
  | segmentationFault
  | graphicsIndexOutOfBounds
  | stackIndexOutOfBounds
  | stackPointerUnderflow
  | registerGuardPanic
  | registerIndexOutOfBounds
  | keypadIndexOutOfBounds
  deriving DecidableEq, Repr

/-- Pointwise array update, the embedding of `a[i] = v` on a
    function-represented array. -/
def updateFn (f : Nat → Nat) (i v : Nat) : Nat → Nat :=
  fun j => if j = i then v else f j

/-- The 80-byte built-in glyph table `DIGITS` from `mem.rs`. -/
def DIGITS : List Nat :=
  [0xF0, 0x90, 0x90, 0x90, 0xF0,
   0x20, 0x60, 0x20, 0x20, 0x70,
   0xF0, 0x10, 0xF0, 0x80, 0xF0,
   0xF0, 0x10, 0xF0, 0x10, 0xF0,
   0x90, 0x90, 0xF0, 0x10, 0x10,
   0xF0, 0x80, 0xF0, 0x10, 0xF0,
   0xF0, 0x80, 0xF0, 0x90, 0xF0,
   0xF0, 0x10, 0x20, 0x40, 0x40,
   0xF0, 0x90, 0xF0, 0x90, 0xF0,
   0xF0, 0x90, 0xF0, 0x10, 0xF0,
   0xF0, 0x90, 0xF0, 0x90, 0x90,
   0xE0, 0x90, 0xE0, 0x90, 0xE0,
   0xF0, 0x80, 0x80, 0x80, 0xF0,
   0xE0, 0x90, 0x90, 0x90, 0xE0,
   0xF0, 0x80, 0xF0, 0x80, 0xF0,
   0xF0, 0x80, 0xF0, 0x80, 0x80]

/-- The `Mem` component: 4096 memory bytes, a 16-entry stack of 16-bit
    return addresses, a 64×64 framebuffer of `u32` pixel cells, and the
    stack pointer (constants `MEMORY_SIZE = 0x1000`, `STACK_SIZE = 0x10`,
    `GRAPHICS_WIDTH = GRAPHICS_HEIGHT = 64` in `mem.rs`). -/
structure Mem where
  memory : Nat → Nat
  stack : Nat → Nat
  graphics : Nat → Nat
  stack_pointer : Nat

/-- `Mem::new`: everything zeroed, then `DIGITS` copied into
    `memory[0x1AF..0x1FF)` (`DIGITS_MEMORY_START = 0x1AF`). -/
def Mem.new : Mem :=
  { memory := fun i => if 0x1AF ≤ i ∧ i < 0x1FF then DIGITS.getD (i - 0x1AF) 0 else 0
    stack := fun _ => 0
    graphics := fun _ => 0
    stack_pointer := 0 }

/-- `Mem::load_program`: rejects a program with `0x200 + len > 4096`
    leaving memory untouched (the `&mut self` receiver is returned
    unchanged together with the error), otherwise copies the bytes to
    `0x200..`. -/
def Mem.load_program (m : Mem) (program : List Nat) : Mem × Option String :=
  if 0x200 + program.length > 0x1000 then
    (m, some "Program is too large to fit in memory")
  else
    ({ m with memory := fun i =>
        if 0x200 ≤ i ∧ i < 0x200 + program.length then program.getD (i - 0x200) 0
        else m.memory i },
     none)

/-- `Mem::fetch_opcode`: big-endian 16-bit read of `memory[index]` and
    `memory[index + 1]`; either access out of the 4096-byte array is an
    index-out-of-bounds panic. -/
def Mem.fetch_opcode (m : Mem) (index : Nat) : Except Fault Nat :=
  if index + 1 < 0x1000 then .ok ((m.memory index <<< 8) ||| m.memory (index + 1))
  else .error .memIndexOutOfBounds

/-- `Mem::fetch`: raw byte read with the array bounds check. -/
def Mem.fetch (m : Mem) (index : Nat) : Except Fault Nat :=
  if index < 0x1000 then .ok (m.memory index) else .error .memIndexOutOfBounds

/-- `Mem::store`: panics ("Segmentation fault") below
    `PROGRAM_MEMORY_START = 0x200`, then the array write bound check. -/
def Mem.store (m : Mem) (index value : Nat) : Except Fault Mem :=
  if index < 0x200 then .error .segmentationFault
  else if index < 0x1000 then .ok { m with memory := updateFn m.memory index value }
  else .error .memIndexOutOfBounds

/-- `Mem::fetch_graphics`: reads `graphics[x + (y << 6)] & 0xFF`. -/
def Mem.fetch_graphics (m : Mem) (x y : Nat) : Except Fault Nat :=
  if x + (y <<< 6) < 4096 then .ok (m.graphics (x + (y <<< 6)) &&& 0xFF)
  else .error .graphicsIndexOutOfBounds

/-- `Mem::store_graphics`: writes `(val as u32) | 0xFF00` to
    `graphics[x + (y << 6)]`. -/
def Mem.store_graphics (m : Mem) (x y val : Nat) : Except Fault Mem :=
  if x + (y <<< 6) < 4096 then
    .ok { m with graphics := updateFn m.graphics (x + (y <<< 6)) (val ||| 0xFF00) }
  else .error .graphicsIndexOutOfBounds

/-- `Mem::clear_graphics`: zeroes every framebuffer cell. -/
def Mem.clear_graphics (m : Mem) : Mem :=
  { m with graphics := fun _ => 0 }

/-- `Mem::push`: increments the stack pointer first, then stores at the
    new pointer; the store is an array-bounds panic when the incremented
    pointer reaches `STACK_SIZE = 16`. -/
def Mem.push (m : Mem) (addr : Nat) : Except Fault Mem :=
  if m.stack_pointer + 1 < 16 then
    .ok { m with stack_pointer := m.stack_pointer + 1
                 stack := updateFn m.stack (m.stack_pointer + 1) addr }
  else .error .stackIndexOutOfBounds

/-- `Mem::peek`: reads the slot at the current stack pointer. -/
def Mem.peek (m : Mem) : Except Fault Nat :=
  if m.stack_pointer < 16 then .ok (m.stack m.stack_pointer)
  else .error .stackIndexOutOfBounds

/-- `Mem::pop`: decrements the (usize) stack pointer — an integer
    underflow panic at depth 0 — then reads the slot above the new
    pointer (i.e. the old top); the read is bounds checked. -/
def Mem.pop (m : Mem) : Except Fault (Nat × Mem) :=
  if m.stack_pointer = 0 then .error .stackPointerUnderflow
  else if (m.stack_pointer - 1) + 1 < 16 then
    .ok (m.stack ((m.stack_pointer - 1) + 1), { m with stack_pointer := m.stack_pointer - 1 })
  else .error .stackIndexOutOfBounds

/-- `Mem::get_address_for_digit`: `DIGITS_MEMORY_START + 5 * digit`,
    cast to `u16`. -/
def Mem.get_address_for_digit (_ : Mem) (digit : Nat) : Nat :=
  (0x1AF + 5 * digit) % 65536

/-- The `Cpu` component: 16 8-bit registers, the 16-bit index register,
    the 16-bit program counter and the 8-bit delay timer. -/
structure Cpu where
  registers : Nat → Nat
  index : Nat
  program_counter : Nat
  delay_timer : Nat

/-- `Cpu::new`: zeroed registers, PC at `0x200`. -/
def Cpu.new : Cpu :=
  { registers := fun _ => 0, index := 0, program_counter := 0x200, delay_timer := 0 }

/-- `Cpu::increase_program_counter`: `program_counter += count` on `u16`
    (wraparound modulo `2 ^ 16`). -/
def Cpu.increase_program_counter (c : Cpu) (count : Nat) : Cpu :=
  { c with program_counter := (c.program_counter + count) % 65536 }

/-- `Cpu::set_register_value`: the explicit guard panics only for
    `register_index > REGISTER_COUNT` (i.e. `> 16`); an index that
    passes the guard still faults on the array bounds when it is not
    `< 16`. -/
def Cpu.set_register_value (c : Cpu) (register_index value : Nat) : Except Fault Cpu :=
  if register_index > 16 then .error .registerGuardPanic
  else if register_index < 16 then
    .ok { c with registers := updateFn c.registers register_index value }
  else .error .registerIndexOutOfBounds

/-- `keypad.iter().position(|&x| x)`: index of the first pressed key
    among `0..16`, if any. -/
def keypadPosition (keypad : Nat → Bool) : Option Nat :=
  (List.range 16).find? fun i => keypad i

/-- One iteration of the inner `xline` loop of the `0xDXYN` draw: when
    bit `0x80 >> xline` of the sprite byte is set, read the target
    pixel, record a collision in the flag accumulator if it was on, and
    store the toggled pixel. -/
def draw_col_step (pixel x ybase xline : Nat) (st : Mem × Nat) : Except Fault (Mem × Nat) :=
  if pixel &&& (0x80 >>> xline) ≠ 0 then
    (st.1.fetch_graphics (x + xline) ybase).bind fun current_pixel =>
      (st.1.store_graphics (x + xline) ybase (current_pixel ^^^ 0x01)).bind fun m1 =>
        .ok (m1, if current_pixel = 1 then 1 else st.2)
  else .ok st

/-- The inner `for xline in 0..8` loop of `0xDXYN`, over an explicit
    list of column indices. -/
def draw_cols (pixel x ybase : Nat) : List Nat → Mem × Nat → Except Fault (Mem × Nat)
  | [], st => .ok st
  | xline :: rest, st =>
      (draw_col_step pixel x ybase xline st).bind (draw_cols pixel x ybase rest)

/-- The outer `for yline in 0..height` loop of `0xDXYN`: fetch the
    sprite byte at `index + yline` (a `u16` addition) and run the
    column loop on row `y + yline`.  The flag accumulator in the second
    component stands for `registers[0xF]`, written back after the loop. -/
def draw_rows (index x y : Nat) : List Nat → Mem × Nat → Except Fault (Mem × Nat)
  | [], st => .ok st
  | yline :: rest, st =>
      (st.1.fetch ((index + yline) % 65536)).bind fun pixel =>
        (draw_cols pixel x (y + yline) (List.range 8) st).bind (draw_rows index x y rest)

/-- The `0xFX55` loop: store `registers[i]` at `base + i` for each `i`
    in the iteration list. -/
def store_register_block (registers : Nat → Nat) (base : Nat) :
    List Nat → Mem → Except Fault Mem
  | [], m => .ok m
  | i :: rest, m =>
      (m.store (base + i) (registers i)).bind (store_register_block registers base rest)

/-- The `0xFX65` loop: load `registers[i]` from memory at
    `(index + i) mod 2 ^ 16` (a `u16` addition) for each `i`.  The
    register write index is at most `X ≤ 15`, inside the array. -/
def load_register_block (index : Nat) :
    List Nat → (Nat → Nat) → Mem → Except Fault (Nat → Nat)
  | [], registers, _ => .ok registers
  | i :: rest, registers, m =>
      (m.fetch ((index + i) % 65536)).bind fun v =>
        load_register_block index rest (updateFn registers i v) m

/-- The inner `match opcode & 0x000F` dispatch of the `0x8XYN`
    register-register ALU family: a register-file transform factored out
    of `execute_cycle` as an explicit state-passing function; the `+2`
    program-counter advance that follows the inner match (for every
    sub-opcode, recognized or not) stays at the call site. -/
def execute_alu (cpu : Cpu) (opcode : Nat) : Except Fault Cpu :=
  if opcode &&& 0x000F = 0x0000 then
    cpu.set_register_value ((opcode >>> 8) &&& 0x0F)
      (cpu.registers ((opcode >>> 4) &&& 0x0F))
  else if opcode &&& 0x000F = 0x0001 then
    cpu.set_register_value ((opcode >>> 8) &&& 0x0F)
      (cpu.registers ((opcode >>> 8) &&& 0x0F) ||| cpu.registers ((opcode >>> 4) &&& 0x0F))
  else if opcode &&& 0x000F = 0x0002 then
    cpu.set_register_value ((opcode >>> 8) &&& 0x0F)
      (cpu.registers ((opcode >>> 8) &&& 0x0F) &&& cpu.registers ((opcode >>> 4) &&& 0x0F))
  else if opcode &&& 0x000F = 0x0003 then
    cpu.set_register_value ((opcode >>> 8) &&& 0x0F)
      (cpu.registers ((opcode >>> 8) &&& 0x0F) ^^^ cpu.registers ((opcode >>> 4) &&& 0x0F))
  else if opcode &&& 0x000F = 0x0004 then
    -- `result: u32 = vx + vy`, carry when the sum exceeds 0xFF,
    -- low byte stored first, flag register written second.
    (cpu.set_register_value ((opcode >>> 8) &&& 0x0F)
        ((cpu.registers ((opcode >>> 8) &&& 0x0F) +
          cpu.registers ((opcode >>> 4) &&& 0x0F)) &&& 0xFF)).bind fun cpu1 =>
      cpu1.set_register_value 0xF
        (if 0xFF < cpu.registers ((opcode >>> 8) &&& 0x0F) +
                    cpu.registers ((opcode >>> 4) &&& 0x0F) then 1 else 0)
  else if opcode &&& 0x000F = 0x0005 then
    -- `result: i32 = vx - vy`; `(result & 0xFF) as u8` is the
    -- two's-complement low byte, i.e. `result.emod 256`.
    (cpu.set_register_value ((opcode >>> 8) &&& 0x0F)
        ((((cpu.registers ((opcode >>> 8) &&& 0x0F) : Int) -
           (cpu.registers ((opcode >>> 4) &&& 0x0F) : Int)).emod 256).toNat)).bind fun cpu1 =>
      cpu1.set_register_value 0xF
        (if ((cpu.registers ((opcode >>> 8) &&& 0x0F) : Int) -
             (cpu.registers ((opcode >>> 4) &&& 0x0F) : Int)) < 0 then 1 else 0)
  else if opcode &&& 0x000F = 0x0006 then
    -- flag register written first, then x is re-read and shifted.
    (cpu.set_register_value 15 (cpu.registers ((opcode >>> 8) &&& 0x0F) &&& 0x01)).bind
      fun cpu1 =>
        cpu1.set_register_value ((opcode >>> 8) &&& 0x0F)
          (cpu1.registers ((opcode >>> 8) &&& 0x0F) >>> 1)
  else if opcode &&& 0x000F = 0x0007 then
    (cpu.set_register_value ((opcode >>> 8) &&& 0x0F)
        ((((cpu.registers ((opcode >>> 4) &&& 0x0F) : Int) -
           (cpu.registers ((opcode >>> 8) &&& 0x0F) : Int)).emod 256).toNat)).bind fun cpu1 =>
      cpu1.set_register_value 0xF
        (if ((cpu.registers ((opcode >>> 4) &&& 0x0F) : Int) -
             (cpu.registers ((opcode >>> 8) &&& 0x0F) : Int)) < 0 then 1 else 0)
  else if opcode &&& 0x000F = 0x000E then
    -- flag register written first, then x is re-read and shifted
    -- left (`u8` shift keeps the low 8 bits).
    (cpu.set_register_value 15
        ((cpu.registers ((opcode >>> 8) &&& 0x0F) &&& 0x80) >>> 7)).bind fun cpu1 =>
      cpu1.set_register_value ((opcode >>> 8) &&& 0x0F)
        ((cpu1.registers ((opcode >>> 8) &&& 0x0F) <<< 1) % 256)
  else .ok cpu

/-- The decode-execute step of `Cpu::execute_cycle` applied to an
    already fetched opcode: the Rust `match opcode & 0xF000` dispatch
    with its nested sub-dispatches, transcribed arm by arm as an
    equality chain.  Unrecognized (sub-)opcodes are logged and leave all
    state unchanged.  `rand % 256` stands for the `rand::random::<u8>()`
    draw of the `0xCXNN` arm, supplied as an explicit oracle input.
    Register reads/writes whose index is a masked nibble (or the literal
    15) cannot fault and are embedded as plain function reads/updates;
    writes through `set_register_value` keep its guard. -/
def execute_opcode (cpu : Cpu) (mem : Mem) (keypad : Nat → Bool) (rand : Nat)
    (opcode : Nat) : Except Fault (Cpu × Mem) :=
  if opcode &&& 0xF000 = 0x0000 then
    if opcode &&& 0x000F = 0x000 then
      .ok (cpu.increase_program_counter 2, mem.clear_graphics)
    else if opcode &&& 0x000F = 0x00E then
      mem.pop.bind fun pm =>
        .ok (({ cpu with program_counter := pm.1 }).increase_program_counter 2, pm.2)
    else .ok (cpu, mem)
  else if opcode &&& 0xF000 = 0x1000 then
    .ok ({ cpu with program_counter := opcode &&& 0x0FFF }, mem)
  else if opcode &&& 0xF000 = 0x2000 then
    (mem.push cpu.program_counter).bind fun mem1 =>
      .ok ({ cpu with program_counter := opcode &&& 0x0FFF }, mem1)
  else if opcode &&& 0xF000 = 0x3000 then
    if opcode &&& 0x00FF = cpu.registers ((opcode >>> 8) &&& 0xF) then
      .ok (cpu.increase_program_counter 4, mem)
    else .ok (cpu.increase_program_counter 2, mem)
  else if opcode &&& 0xF000 = 0x4000 then
    if opcode &&& 0x00FF ≠ cpu.registers ((opcode >>> 8) &&& 0xF) then
      .ok (cpu.increase_program_counter 4, mem)
    else .ok (cpu.increase_program_counter 2, mem)
  else if opcode &&& 0xF000 = 0x5000 then
    if cpu.registers ((opcode >>> 8) &&& 0x0F) = cpu.registers ((opcode >>> 4) &&& 0x0F) then
      .ok (cpu.increase_program_counter 4, mem)
    else .ok (cpu.increase_program_counter 2, mem)
  else if opcode &&& 0xF000 = 0x6000 then
    (cpu.set_register_value ((opcode >>> 8) &&& 0x0F) (opcode &&& 0x00FF)).bind fun cpu1 =>
      .ok (cpu1.increase_program_counter 2, mem)
  else if opcode &&& 0xF000 = 0x7000 then
    (cpu.set_register_value ((opcode >>> 8) &&& 0x0F)
        ((cpu.registers ((opcode >>> 8) &&& 0x0F) + (opcode &&& 0x00FF)) &&& 0xFF)).bind
      fun cpu1 => .ok (cpu1.increase_program_counter 2, mem)
  else if opcode &&& 0xF000 = 0x8000 then
    (execute_alu cpu opcode).bind fun cpu2 => .ok (cpu2.increase_program_counter 2, mem)
  else if opcode &&& 0xF000 = 0x9000 then
    if cpu.registers ((opcode >>> 8) &&& 0x0F) = cpu.registers ((opcode >>> 4) &&& 0x0F) then
      .ok (cpu.increase_program_counter 2, mem)
    else .ok (cpu.increase_program_counter 4, mem)
  else if opcode &&& 0xF000 = 0xA000 then
    .ok (({ cpu with index := opcode &&& 0x0FFF }).increase_program_counter 2, mem)
  else if opcode &&& 0xF000 = 0xB000 then
    .ok ({ cpu with program_counter := ((opcode &&& 0x0FFF) + cpu.registers 0) % 65536 }, mem)
  else if opcode &&& 0xF000 = 0xC000 then
    .ok (({ cpu with registers := (updateFn cpu.registers ((opcode >>> 8) &&& 0x0F)
              ((rand % 256) &&& (opcode &&& 0x00FF))) }).increase_program_counter 2, mem)
  else if opcode &&& 0xF000 = 0xD000 then
    (draw_rows cpu.index (cpu.registers ((opcode >>> 8) &&& 0x0F))
        (cpu.registers ((opcode >>> 4) &&& 0x0F)) (List.range (opcode &&& 0x0F))
        (mem, 0)).bind fun mv =>
      .ok (({ cpu with registers := updateFn cpu.registers 15 mv.2 }).increase_program_counter 2,
           mv.1)
  else if opcode &&& 0xF000 = 0xE000 then
    if opcode &&& 0x00FF = 0x009E then
      if cpu.registers ((opcode >>> 8) &&& 0x0F) < 16 then
        if keypad (cpu.registers ((opcode >>> 8) &&& 0x0F)) then
          .ok (cpu.increase_program_counter 4, mem)
        else .ok (cpu, mem)
      else .error .keypadIndexOutOfBounds
    else if opcode &&& 0x00FF = 0x00A1 then
      if cpu.registers ((opcode >>> 8) &&& 0x0F) < 16 then
        if keypad (cpu.registers ((opcode >>> 8) &&& 0x0F)) then .ok (cpu, mem)
        else .ok (cpu.increase_program_counter 4, mem)
      else .error .keypadIndexOutOfBounds
    else .ok (cpu, mem)
  else if opcode &&& 0xF000 = 0xF000 then
    if opcode &&& 0xFF = 0x0007 then
      (cpu.set_register_value ((opcode >>> 8) &&& 0x0F) cpu.delay_timer).bind fun cpu1 =>
        .ok (cpu1.increase_program_counter 2, mem)
    else if opcode &&& 0xFF = 0x000A then
      match keypadPosition keypad with
      | some k =>
          (cpu.set_register_value ((opcode >>> 8) &&& 0xF) k).bind fun cpu1 =>
            .ok (cpu1.increase_program_counter 2, mem)
      | none => .ok (cpu, mem)
    else if opcode &&& 0xFF = 0x0015 then
      .ok (({ cpu with delay_timer := cpu.registers ((opcode >>> 8) &&& 0x0F)
            }).increase_program_counter 2, mem)
    else if opcode &&& 0xFF = 0x0018 then
      -- the 0xFX18 arm of the source is an empty block: no state
      -- change, and in particular no program-counter advance.
      .ok (cpu, mem)
    else if opcode &&& 0xFF = 0x001E then
      .ok (({ cpu with index :=
              (cpu.index + cpu.registers ((opcode >>> 8) &&& 0x0F)) % 65536
            }).increase_program_counter 2, mem)
    else if opcode &&& 0xFF = 0x0029 then
      .ok (({ cpu with index :=
              mem.get_address_for_digit (cpu.registers ((opcode >>> 8) &&& 0x0F))
            }).increase_program_counter 2, mem)
    else if opcode &&& 0xFF = 0x0033 then
      (mem.store cpu.index ((cpu.registers ((opcode >>> 8) &&& 0x0F) / 100) % 10)).bind fun m1 =>
        (m1.store (cpu.index + 1) ((cpu.registers ((opcode >>> 8) &&& 0x0F) / 10) % 10)).bind
          fun m2 =>
            (m2.store (cpu.index + 2) (cpu.registers ((opcode >>> 8) &&& 0x0F) % 10)).bind
              fun m3 => .ok (cpu.increase_program_counter 2, m3)
    else if opcode &&& 0xFF = 0x0055 then
      -- the Rust range `index .. index + X + 1` is over u16 values: when
      -- the end wraps below the start the range is empty, hence the
      -- iteration count `end - index` in Nat subtraction.
      (store_register_block cpu.registers cpu.index
          (List.range (((cpu.index + ((opcode >>> 8) &&& 0x0F) + 1) % 65536) - cpu.index))
          mem).bind fun m1 =>
        .ok (({ cpu with index := (cpu.index + ((opcode >>> 8) &&& 0x0F) + 1) % 65536
              }).increase_program_counter 2, m1)
    else if opcode &&& 0xFF = 0x0065 then
      (load_register_block cpu.index (List.range (((opcode >>> 8) &&& 0x0F) + 1))
          cpu.registers mem).bind fun regs1 =>
        .ok (({ cpu with registers := regs1
                         index := (cpu.index + ((opcode >>> 8) &&& 0x0F) + 1) % 65536
              }).increase_program_counter 2, mem)
    else .ok (cpu, mem)
  else .ok (cpu, mem)

/-- `Cpu::execute_cycle`: fetch the opcode at the program counter, then
    decode and execute it. -/
def execute_cycle (cpu : Cpu) (mem : Mem) (keypad : Nat → Bool) (rand : Nat) :
    Except Fault (Cpu × Mem) :=
  (mem.fetch_opcode cpu.program_counter).bind (execute_opcode cpu mem keypad rand)

/-- The `Chip8` facade from `chip8.rs`: one `Cpu` and one `Mem`. -/
structure Chip8 where
  cpu : Cpu
  mem : Mem

/-- `Chip8::new`. -/
def Chip8.new : Chip8 :=
  { cpu := Cpu.new, mem := Mem.new }

/-- `Chip8::load_program`: delegates to `Mem::load_program`. -/
def Chip8.load_program (c : Chip8) (program : List Nat) : Chip8 × Option String :=
  let r := c.mem.load_program program
  ({ c with mem := r.1 }, r.2)

/-- `Chip8::run_cycle`: one full fetch-decode-execute step. -/
def Chip8.run_cycle (c : Chip8) (keypad : Nat → Bool) (rand : Nat) : Except Fault Chip8 :=
  (execute_cycle c.cpu c.mem keypad rand).bind fun cm => .ok { cpu := cm.1, mem := cm.2 }


theorem updateFn_same (f : Nat → Nat) (i v : Nat) : updateFn f i v i = v := by
  simp [updateFn]

theorem updateFn_other (f : Nat → Nat) {i j : Nat} (h : j ≠ i) (v : Nat) :
    updateFn f i v j = f j := by
  simp [updateFn, h]

/-- A masked nibble is always a legal register index. -/
theorem nibble_lt (o n : Nat) : (o >>> n) &&& 0xF < 16 :=
  Nat.lt_succ_of_le (Nat.and_le_right)

/-- `set_register_value` succeeds exactly on an in-bounds index. -/
theorem Cpu.set_register_value_lt (c : Cpu) {i : Nat} (h : i < 16) (v : Nat) :
    c.set_register_value i v = .ok { c with registers := updateFn c.registers i v } := by
  have h1 : ¬ i > 16 := by omega
  simp [Cpu.set_register_value, h, h1]

/-- Repeated `push` of a fixed address, used to drive the stack to its
    effective capacity. -/
def push_many : Nat → Mem → Except Fault Mem
  | 0, m => .ok m
  | n + 1, m => (m.push 0x300).bind (push_many n)

/-- C3 (counterexample): from a fresh machine, 15 pushes succeed and
    leave 15 return addresses stored (the stack pointer equals 15, fewer
    than the declared capacity of 16), yet the 16th push faults: the
    increment-then-store discipline never uses slot 0 of the 16-entry
    array. -/
theorem C3_counterexample :
    (push_many 15 Mem.new).isOk = true ∧
    ((push_many 15 Mem.new).toOption.map Mem.stack_pointer = some 15) ∧
    (push_many 16 Mem.new).isOk = false :=
  ⟨rfl, rfl, rfl⟩

/-- C3 (amended): the call stack is a fixed 16-slot array with an
    effective capacity of 15 return addresses: push succeeds without
    fault exactly when fewer than 15 addresses are currently stored and
    faults (array bounds) on the push past that; pop faults exactly when
    no pushed entry remains (for any in-array stack pointer); push
    increments the stack pointer then stores, pop decrements then reads
    the old top; pop after a successful push returns the pushed
    address. -/
theorem C3_push_pop (m : Mem) (addr : Nat) :
    ((m.push addr).isOk = true ↔ m.stack_pointer + 1 < 16) ∧
    (m.stack_pointer < 16 → ((m.pop).isOk = true ↔ m.stack_pointer ≠ 0)) ∧
    (∀ m1, m.push addr = .ok m1 →
      m1.pop = .ok (addr, { m1 with stack_pointer := m.stack_pointer })) := by
  refine ⟨?_, ?_, ?_⟩
  · by_cases h : m.stack_pointer + 1 < 16 <;> simp [Mem.push, h, Except.isOk, Except.toBool]
  · intro hlt
    by_cases h0 : m.stack_pointer = 0
    · simp [Mem.pop, h0, Except.isOk, Except.toBool]
    · have h1 : (m.stack_pointer - 1) + 1 < 16 := by omega
      simp [Mem.pop, h0, h1, Except.isOk, Except.toBool]
  · intro m1 hpush
    by_cases h : m.stack_pointer + 1 < 16
    · simp only [Mem.push, h, if_true, Except.ok.injEq] at hpush
      subst hpush
      simp [Mem.pop, h, updateFn_same]
    · simp [Mem.push, h] at hpush

/-- C3 (witness): a fresh machine accepts a push. -/
theorem C3_witness : (Mem.new.push 0x777).isOk = true :=
  (C3_push_pop Mem.new 0x777).1.mpr (by decide)

/-- C7: `load_program` fails with a capacity error exactly when
    `0x200 + length` exceeds 4096; on failure the memory is returned
    unchanged; on success the bytes are copied verbatim to `0x200..`
    (no inspection of the bytes themselves occurs — success depends only
    on the length). -/
theorem C7_load_program (m : Mem) (program : List Nat) :
    ((m.load_program program).2.isSome = true ↔ 0x1000 < 0x200 + program.length) ∧
    ((m.load_program program).2.isSome = true → (m.load_program program).1 = m) ∧
    ((m.load_program program).2 = none →
      ∀ i, i < program.length →
        (m.load_program program).1.memory (0x200 + i) = program.getD i 0) := by
  by_cases h : 0x200 + program.length > 0x1000
  · simp [Mem.load_program, h]
  · simp only [Mem.load_program, h, if_false, gt_iff_lt]
    refine ⟨by simp [h], by simp, ?_⟩
    intro _ i hi
    have hcond : 0x200 ≤ 0x200 + i ∧ 0x200 + i < 0x200 + program.length := by omega
    simp [hcond]

/-- C7 (witness): a two-byte program loads successfully and lands
    verbatim at 0x200. -/
theorem C7_witness :
    (Mem.new.load_program [0xAB, 0xCD]).2 = none ∧
    (Mem.new.load_program [0xAB, 0xCD]).1.memory 0x200 = 0xAB ∧
    (Mem.new.load_program [0xAB, 0xCD]).1.memory 0x201 = 0xCD := by
  have h := C7_load_program Mem.new [0xAB, 0xCD]
  refine ⟨rfl, ?_, ?_⟩
  · simpa using h.2.2 rfl 0 (by decide)
  · simpa using h.2.2 rfl 1 (by decide)

/-- C8 (code bug): calling `set_register_value` with register index 16
    is NOT caught by the explicit guard — the guard's non-inclusive
    comparison (`> 16`) only panics for indices 17 and above, so index
    16 falls through to the masking array-bounds fault, contrary to the
    spec's requirement that the guard validate inclusively. -/
theorem C8_register_guard :
    Cpu.new.set_register_value 16 0 = .error .registerIndexOutOfBounds ∧
    Fault.registerIndexOutOfBounds ≠ Fault.registerGuardPanic ∧
    (∀ c v i, 16 < i → Cpu.set_register_value c i v = .error .registerGuardPanic) := by
  refine ⟨rfl, by decide, ?_⟩
  intro c v i h
  simp [Cpu.set_register_value, h]

/-- C8 (witness): index 17 does trip the guard panic. -/
theorem C8_witness : Cpu.new.set_register_value 17 0 = .error .registerGuardPanic :=
  C8_register_guard.2.2 Cpu.new 0 17 (by omega)

/-- C4: the `0x8XY5` subtract computes the signed difference
    `vx - vy` (as `i32`), stores its two's-complement low byte
    (`(result & 0xFF) as u8`, i.e. `result.emod 256`) into register X,
    and then sets register 15 to 1 exactly when the signed result is
    negative (a borrow), else 0; the program counter advances by 2. -/
theorem C4_subtract (cpu : Cpu) (mem : Mem) (keypad : Nat → Bool) (rand : Nat) (opcode : Nat)
    (hfetch : mem.fetch_opcode cpu.program_counter = .ok opcode)
    (hfam : opcode &&& 0xF000 = 0x8000)
    (hsub : opcode &&& 0x000F = 0x0005) :
    execute_cycle cpu mem keypad rand = .ok
      (({ cpu with registers :=
          (updateFn
            (updateFn cpu.registers ((opcode >>> 8) &&& 0x0F)
              ((((cpu.registers ((opcode >>> 8) &&& 0x0F) : Int) -
                 (cpu.registers ((opcode >>> 4) &&& 0x0F) : Int)).emod 256).toNat))
            0xF
            (if ((cpu.registers ((opcode >>> 8) &&& 0x0F) : Int) -
                 (cpu.registers ((opcode >>> 4) &&& 0x0F) : Int)) < 0 then 1 else 0))
        }).increase_program_counter 2, mem) := by
  have hx := nibble_lt opcode 8
  have h15 : (0xF : Nat) < 16 := by decide
  simp [execute_cycle, hfetch, Except.bind, execute_opcode, execute_alu, hfam, hsub,
        Cpu.set_register_value_lt _ hx, Cpu.set_register_value_lt _ h15]

/-- C4 (witness): with register 1 holding 0x00 and register 2 holding
    0xFF, opcode 0x8125 leaves register 1 = 0x01 and register 15 = 1. -/
theorem C4_witness :
    ((execute_cycle { Cpu.new with registers := updateFn Cpu.new.registers 2 0xFF }
        (Mem.new.load_program [0x81, 0x25]).1 (fun _ => false) 0).map
      fun p => (p.1.registers 1, p.1.registers 15)) = .ok (0x01, 0x01) := by
  rw [C4_subtract { Cpu.new with registers := updateFn Cpu.new.registers 2 0xFF }
      (Mem.new.load_program [0x81, 0x25]).1 (fun _ => false) 0 0x8125 rfl rfl rfl]
  rfl

/-- C5: the `0x8XY4` add computes the (9-bit) sum of the two register
    values as a `u32`, stores its low 8 bits into register X, and then
    sets register 15 to 1 exactly when the sum exceeded 0xFF, else 0;
    the program counter advances by 2. -/
theorem C5_add (cpu : Cpu) (mem : Mem) (keypad : Nat → Bool) (rand : Nat) (opcode : Nat)
    (hfetch : mem.fetch_opcode cpu.program_counter = .ok opcode)
    (hfam : opcode &&& 0xF000 = 0x8000)
    (hadd : opcode &&& 0x000F = 0x0004) :
    execute_cycle cpu mem keypad rand = .ok
      (({ cpu with registers :=
          (updateFn
            (updateFn cpu.registers ((opcode >>> 8) &&& 0x0F)
              ((cpu.registers ((opcode >>> 8) &&& 0x0F) +
                cpu.registers ((opcode >>> 4) &&& 0x0F)) &&& 0xFF))
            0xF
            (if 0xFF < cpu.registers ((opcode >>> 8) &&& 0x0F) +
                       cpu.registers ((opcode >>> 4) &&& 0x0F) then 1 else 0))
        }).increase_program_counter 2, mem) := by
  have hx := nibble_lt opcode 8
  have h15 : (0xF : Nat) < 16 := by decide
  simp [execute_cycle, hfetch, Except.bind, execute_opcode, execute_alu, hfam, hadd,
        Cpu.set_register_value_lt _ hx, Cpu.set_register_value_lt _ h15]

/-- C5 (witness): with registers 1 and 2 both holding 0xFF, opcode
    0x8124 leaves register 1 = 0xFE and register 15 = 1. -/
theorem C5_witness :
    ((execute_cycle
        { Cpu.new with registers := updateFn (updateFn Cpu.new.registers 1 0xFF) 2 0xFF }
        (Mem.new.load_program [0x81, 0x24]).1 (fun _ => false) 0).map
      fun p => (p.1.registers 1, p.1.registers 15)) = .ok (0xFE, 0x01) := by
  rw [C5_add { Cpu.new with registers := updateFn (updateFn Cpu.new.registers 1 0xFF) 2 0xFF }
      (Mem.new.load_program [0x81, 0x24]).1 (fun _ => false) 0 0x8124 rfl rfl rfl]
  rfl

/-- C10: when the destination register X is 15 (the flag register), the
    add / subtract / reverse-subtract instructions write the result
    first and the flag second, so register 15 ends the cycle holding
    only the carry/borrow flag and the arithmetic result is discarded;
    for shift-right / shift-left the writes happen in the opposite order
    and the shifted operand is re-read after the flag write, so register
    15 ends holding the extracted bit shifted (which is 0 for
    shift-right), not the shift of the original value. -/
theorem C10_flag_destination (cpu : Cpu) (mem : Mem) (keypad : Nat → Bool) (rand : Nat) :
    (∀ opcode, opcode &&& 0xF000 = 0x8000 → (opcode >>> 8) &&& 0x0F = 15 →
      opcode &&& 0x000F = 0x0004 →
      ((execute_opcode cpu mem keypad rand opcode).map fun p => p.1.registers 15) =
        .ok (if 0xFF < cpu.registers 15 + cpu.registers ((opcode >>> 4) &&& 0x0F)
             then 1 else 0)) ∧
    (∀ opcode, opcode &&& 0xF000 = 0x8000 → (opcode >>> 8) &&& 0x0F = 15 →
      opcode &&& 0x000F = 0x0005 →
      ((execute_opcode cpu mem keypad rand opcode).map fun p => p.1.registers 15) =
        .ok (if ((cpu.registers 15 : Int) - (cpu.registers ((opcode >>> 4) &&& 0x0F) : Int)) < 0
             then 1 else 0)) ∧
    (∀ opcode, opcode &&& 0xF000 = 0x8000 → (opcode >>> 8) &&& 0x0F = 15 →
      opcode &&& 0x000F = 0x0007 →
      ((execute_opcode cpu mem keypad rand opcode).map fun p => p.1.registers 15) =
        .ok (if ((cpu.registers ((opcode >>> 4) &&& 0x0F) : Int) - (cpu.registers 15 : Int)) < 0
             then 1 else 0)) ∧
    (∀ opcode, opcode &&& 0xF000 = 0x8000 → (opcode >>> 8) &&& 0x0F = 15 →
      opcode &&& 0x000F = 0x0006 →
      ((execute_opcode cpu mem keypad rand opcode).map fun p => p.1.registers 15) =
        .ok ((cpu.registers 15 &&& 0x01) >>> 1) ∧
      (cpu.registers 15 &&& 0x01) >>> 1 = 0) ∧
    (∀ opcode, opcode &&& 0xF000 = 0x8000 → (opcode >>> 8) &&& 0x0F = 15 →
      opcode &&& 0x000F = 0x000E →
      ((execute_opcode cpu mem keypad rand opcode).map fun p => p.1.registers 15) =
        .ok ((((cpu.registers 15 &&& 0x80) >>> 7) <<< 1) % 256)) := by
  have h15 : (15 : Nat) < 16 := by decide
  have h15x : (0xF : Nat) < 16 := by decide
  refine ⟨?_, ?_, ?_, ?_, ?_⟩
  · intro opcode h1 h2 h3
    simp [execute_opcode, execute_alu, h1, h2, h3, Cpu.set_register_value_lt _ h15,
          Cpu.set_register_value_lt _ h15x, Except.bind, Except.map,
          Cpu.increase_program_counter, updateFn_same]
  · intro opcode h1 h2 h3
    simp [execute_opcode, execute_alu, h1, h2, h3, Cpu.set_register_value_lt _ h15,
          Cpu.set_register_value_lt _ h15x, Except.bind, Except.map,
          Cpu.increase_program_counter, updateFn_same]
  · intro opcode h1 h2 h3
    simp [execute_opcode, execute_alu, h1, h2, h3, Cpu.set_register_value_lt _ h15,
          Cpu.set_register_value_lt _ h15x, Except.bind, Except.map,
          Cpu.increase_program_counter, updateFn_same]
  · intro opcode h1 h2 h3
    have hz : (cpu.registers 15 &&& 0x01) >>> 1 = 0 := by
      have hle : cpu.registers 15 &&& 0x01 ≤ 1 := Nat.and_le_right
      have : (cpu.registers 15 &&& 0x01) >>> 1 = (cpu.registers 15 &&& 0x01) / 2 := by
        simp [Nat.shiftRight_succ, Nat.shiftRight_zero]
      omega
    refine ⟨?_, hz⟩
    simp [execute_opcode, execute_alu, h1, h2, h3, Cpu.set_register_value_lt _ h15,
          Cpu.set_register_value_lt _ h15x, Except.bind, Except.map,
          Cpu.increase_program_counter, updateFn_same]
  · intro opcode h1 h2 h3
    simp [execute_opcode, execute_alu, h1, h2, h3, Cpu.set_register_value_lt _ h15,
          Cpu.set_register_value_lt _ h15x, Except.bind, Except.map,
          Cpu.increase_program_counter, updateFn_same]

/-- C10 (witness): with register 15 holding 5 and register 2 holding 7,
    opcode 0x8F25 (subtract into the flag register) leaves register 15
    holding the borrow flag 1, not the arithmetic result 0xFE. -/
theorem C10_witness :
    ((execute_opcode
        { Cpu.new with registers := (updateFn (updateFn Cpu.new.registers 15 5) 2 7) }
        Mem.new (fun _ => false) 0 0x8F25).map fun p => p.1.registers 15) = .ok 1 := by
  rw [(C10_flag_destination
      { Cpu.new with registers := (updateFn (updateFn Cpu.new.registers 15 5) 2 7) }
      Mem.new (fun _ => false) 0).2.1 0x8F25 rfl rfl rfl]
  rfl

theorem except_bind_eq_ok {α β : Type} {e : Except Fault α} {f : α → Except Fault β} {b : β}
    (h : e.bind f = .ok b) : ∃ a, e = .ok a ∧ f a = .ok b := by
  cases e with
  | error ε => simp [Except.bind] at h
  | ok a => exact ⟨a, rfl, h⟩

theorem pair_fst_of_ok {A cpu1 : Cpu} {B mem1 : Mem}
    (h : (Except.ok (A, B) : Except Fault (Cpu × Mem)) = .ok (cpu1, mem1)) : cpu1 = A := by
  injection h with h1
  exact (congrArg Prod.fst h1).symm

/-- A successful `set_register_value` only touches the register file. -/
theorem set_register_value_delay {c c1 : Cpu} {i v : Nat}
    (h : c.set_register_value i v = .ok c1) : c1.delay_timer = c.delay_timer := by
  unfold Cpu.set_register_value at h
  split at h
  · exact Except.noConfusion h
  · split at h
    · injection h with h1
      rw [← h1]
    · exact Except.noConfusion h

theorem set_register_value_pc {c c1 : Cpu} {i v : Nat}
    (h : c.set_register_value i v = .ok c1) : c1.program_counter = c.program_counter := by
  unfold Cpu.set_register_value at h
  split at h
  · exact Except.noConfusion h
  · split at h
    · injection h with h1
      rw [← h1]
    · exact Except.noConfusion h

/-- The ALU family dispatch never touches the delay timer. -/
theorem execute_alu_delay {cpu c2 : Cpu} {opcode : Nat}
    (h : execute_alu cpu opcode = .ok c2) : c2.delay_timer = cpu.delay_timer := by
  unfold execute_alu at h
  repeat' split at h
  all_goals solve
    | (injection h with h1; rw [← h1])
    | exact set_register_value_delay h
    | (obtain ⟨c1, ha, hb⟩ := except_bind_eq_ok h;
       rw [set_register_value_delay hb, set_register_value_delay ha])

/-- The ALU family dispatch never touches the program counter. -/
theorem execute_alu_pc {cpu c2 : Cpu} {opcode : Nat}
    (h : execute_alu cpu opcode = .ok c2) : c2.program_counter = cpu.program_counter := by
  unfold execute_alu at h
  repeat' split at h
  all_goals solve
    | (injection h with h1; rw [← h1])
    | exact set_register_value_pc h
    | (obtain ⟨c1, ha, hb⟩ := except_bind_eq_ok h;
       rw [set_register_value_pc hb, set_register_value_pc ha])

theorem delay_of_inc2 {c : Cpu} {d : Nat} (h : c.delay_timer = d) :
    (c.increase_program_counter 2).delay_timer = d := h

theorem delay_of_ok {A cpu1 : Cpu} {B mem1 : Mem} {d : Nat}
    (h : (Except.ok (A, B) : Except Fault (Cpu × Mem)) = .ok (cpu1, mem1))
    (hA : A.delay_timer = d) : cpu1.delay_timer = d := by
  rw [pair_fst_of_ok h]
  exact hA

theorem pc_of_ok {A cpu1 : Cpu} {B mem1 : Mem} {p : Nat}
    (h : (Except.ok (A, B) : Except Fault (Cpu × Mem)) = .ok (cpu1, mem1))
    (hA : A.program_counter = p) : cpu1.program_counter = p := by
  rw [pair_fst_of_ok h]
  exact hA

theorem inc2_pc_eq {c cpu0 : Cpu} (h : c.program_counter = cpu0.program_counter) :
    (c.increase_program_counter 2).program_counter = (cpu0.program_counter + 2) % 65536 := by
  simp [Cpu.increase_program_counter, h]

/-- C9: a cycle whose fetched opcode is not a set-delay-timer
    instruction (`0xFX15`) leaves the delay timer unchanged; no other
    code path in the core writes the timer, so it changes only when
    explicitly written (there is no periodic decrement anywhere). -/
theorem C9_delay_timer (cpu : Cpu) (mem : Mem) (keypad : Nat → Bool) (rand : Nat)
    (opcode : Nat) (cpu' : Cpu) (mem' : Mem)
    (hfetch : mem.fetch_opcode cpu.program_counter = .ok opcode)
    (hrun : execute_cycle cpu mem keypad rand = .ok (cpu', mem'))
    (hnot : ¬(opcode &&& 0xF000 = 0xF000 ∧ opcode &&& 0x00FF = 0x0015)) :
    cpu'.delay_timer = cpu.delay_timer := by
  unfold execute_cycle at hrun
  rw [hfetch] at hrun
  simp only [Except.bind] at hrun
  unfold execute_opcode at hrun
  by_cases h0 : opcode &&& 0xF000 = 0x0000
  · rw [h0] at hrun
    by_cases h00 : opcode &&& 0x000F = 0x000
    · rw [h00] at hrun
      exact delay_of_ok hrun rfl
    · rw [if_neg h00] at hrun
      by_cases h0E : opcode &&& 0x000F = 0x00E
      · rw [h0E] at hrun
        obtain ⟨a1, ha1, hrun⟩ := except_bind_eq_ok hrun
        exact delay_of_ok hrun rfl
      · rw [if_neg h0E] at hrun
        exact delay_of_ok hrun rfl
  rw [if_neg h0] at hrun
  by_cases h1 : opcode &&& 0xF000 = 0x1000
  · rw [h1] at hrun
    exact delay_of_ok hrun rfl
  rw [if_neg h1] at hrun
  by_cases h2 : opcode &&& 0xF000 = 0x2000
  · rw [h2] at hrun
    obtain ⟨a1, ha1, hrun⟩ := except_bind_eq_ok hrun
    exact delay_of_ok hrun rfl
  rw [if_neg h2] at hrun
  by_cases h3 : opcode &&& 0xF000 = 0x3000
  · rw [h3] at hrun
    by_cases hc : opcode &&& 0x00FF = cpu.registers ((opcode >>> 8) &&& 0xF)
    · rw [if_pos hc] at hrun
      exact delay_of_ok hrun rfl
    · rw [if_neg hc] at hrun
      exact delay_of_ok hrun rfl
  rw [if_neg h3] at hrun
  by_cases h4 : opcode &&& 0xF000 = 0x4000
  · rw [h4] at hrun
    by_cases hc : opcode &&& 0x00FF ≠ cpu.registers ((opcode >>> 8) &&& 0xF)
    · rw [if_pos hc] at hrun
      exact delay_of_ok hrun rfl
    · rw [if_neg hc] at hrun
      exact delay_of_ok hrun rfl
  rw [if_neg h4] at hrun
  by_cases h5 : opcode &&& 0xF000 = 0x5000
  · rw [h5] at hrun
    by_cases hc : cpu.registers ((opcode >>> 8) &&& 0x0F) = cpu.registers ((opcode >>> 4) &&& 0x0F)
    · rw [if_pos hc] at hrun
      exact delay_of_ok hrun rfl
    · rw [if_neg hc] at hrun
      exact delay_of_ok hrun rfl
  rw [if_neg h5] at hrun
  by_cases h6 : opcode &&& 0xF000 = 0x6000
  · rw [h6] at hrun
    obtain ⟨a1, ha1, hrun⟩ := except_bind_eq_ok hrun
    exact delay_of_ok hrun (delay_of_inc2 (set_register_value_delay ha1))
  rw [if_neg h6] at hrun
  by_cases h7 : opcode &&& 0xF000 = 0x7000
  · rw [h7] at hrun
    obtain ⟨a1, ha1, hrun⟩ := except_bind_eq_ok hrun
    exact delay_of_ok hrun (delay_of_inc2 (set_register_value_delay ha1))
  rw [if_neg h7] at hrun
  by_cases h8 : opcode &&& 0xF000 = 0x8000
  · rw [h8] at hrun
    obtain ⟨a1, ha1, hrun⟩ := except_bind_eq_ok hrun
    exact delay_of_ok hrun (delay_of_inc2 (execute_alu_delay ha1))
  rw [if_neg h8] at hrun
  by_cases h9 : opcode &&& 0xF000 = 0x9000
  · rw [h9] at hrun
    by_cases hc : cpu.registers ((opcode >>> 8) &&& 0x0F) = cpu.registers ((opcode >>> 4) &&& 0x0F)
    · rw [if_pos hc] at hrun
      exact delay_of_ok hrun rfl
    · rw [if_neg hc] at hrun
      exact delay_of_ok hrun rfl
  rw [if_neg h9] at hrun
  by_cases hA : opcode &&& 0xF000 = 0xA000
  · rw [hA] at hrun
    exact delay_of_ok hrun rfl
  rw [if_neg hA] at hrun
  by_cases hB : opcode &&& 0xF000 = 0xB000
  · rw [hB] at hrun
    exact delay_of_ok hrun rfl
  rw [if_neg hB] at hrun
  by_cases hC : opcode &&& 0xF000 = 0xC000
  · rw [hC] at hrun
    exact delay_of_ok hrun rfl
  rw [if_neg hC] at hrun
  by_cases hD : opcode &&& 0xF000 = 0xD000
  · rw [hD] at hrun
    obtain ⟨a1, ha1, hrun⟩ := except_bind_eq_ok hrun
    exact delay_of_ok hrun rfl
  rw [if_neg hD] at hrun
  by_cases hE : opcode &&& 0xF000 = 0xE000
  · rw [hE] at hrun
    by_cases h9E : opcode &&& 0x00FF = 0x009E
    · rw [h9E] at hrun
      by_cases hk : cpu.registers ((opcode >>> 8) &&& 0x0F) < 16
      · rw [if_pos hk] at hrun
        by_cases hkey : keypad (cpu.registers ((opcode >>> 8) &&& 0x0F)) = true
        · rw [if_pos hkey] at hrun
          exact delay_of_ok hrun rfl
        · rw [if_neg hkey] at hrun
          exact delay_of_ok hrun rfl
      · rw [if_neg hk] at hrun
        exact Except.noConfusion hrun
    · rw [if_neg h9E] at hrun
      by_cases hA1 : opcode &&& 0x00FF = 0x00A1
      · rw [hA1] at hrun
        by_cases hk : cpu.registers ((opcode >>> 8) &&& 0x0F) < 16
        · rw [if_pos hk] at hrun
          by_cases hkey : keypad (cpu.registers ((opcode >>> 8) &&& 0x0F)) = true
          · rw [if_pos hkey] at hrun
            exact delay_of_ok hrun rfl
          · rw [if_neg hkey] at hrun
            exact delay_of_ok hrun rfl
        · rw [if_neg hk] at hrun
          exact Except.noConfusion hrun
      · rw [if_neg hA1] at hrun
        exact delay_of_ok hrun rfl
  rw [if_neg hE] at hrun
  by_cases hF : opcode &&& 0xF000 = 0xF000
  · rw [hF] at hrun
    by_cases h07 : opcode &&& 0xFF = 0x0007
    · rw [h07] at hrun
      obtain ⟨a1, ha1, hrun⟩ := except_bind_eq_ok hrun
      exact delay_of_ok hrun (delay_of_inc2 (set_register_value_delay ha1))
    rw [if_neg h07] at hrun
    by_cases h0A : opcode &&& 0xFF = 0x000A
    · rw [h0A] at hrun
      cases hp : keypadPosition keypad with
      | some k =>
          rw [hp] at hrun
          obtain ⟨a1, ha1, hrun⟩ := except_bind_eq_ok hrun
          exact delay_of_ok hrun (delay_of_inc2 (set_register_value_delay ha1))
      | none =>
          rw [hp] at hrun
          exact delay_of_ok hrun rfl
    rw [if_neg h0A] at hrun
    by_cases h15 : opcode &&& 0xFF = 0x0015
    · exact absurd ⟨hF, h15⟩ hnot
    rw [if_neg h15] at hrun
    by_cases h18 : opcode &&& 0xFF = 0x0018
    · rw [h18] at hrun
      exact delay_of_ok hrun rfl
    rw [if_neg h18] at hrun
    by_cases h1E : opcode &&& 0xFF = 0x001E
    · rw [h1E] at hrun
      exact delay_of_ok hrun rfl
    rw [if_neg h1E] at hrun
    by_cases h29 : opcode &&& 0xFF = 0x0029
    · rw [h29] at hrun
      exact delay_of_ok hrun rfl
    rw [if_neg h29] at hrun
    by_cases h33 : opcode &&& 0xFF = 0x0033
    · rw [h33] at hrun
      obtain ⟨a1, ha1, hrun⟩ := except_bind_eq_ok hrun
      obtain ⟨a2, ha2, hrun⟩ := except_bind_eq_ok hrun
      obtain ⟨a3, ha3, hrun⟩ := except_bind_eq_ok hrun
      exact delay_of_ok hrun rfl
    rw [if_neg h33] at hrun
    by_cases h55 : opcode &&& 0xFF = 0x0055
    · rw [h55] at hrun
      obtain ⟨a1, ha1, hrun⟩ := except_bind_eq_ok hrun
      exact delay_of_ok hrun rfl
    rw [if_neg h55] at hrun
    by_cases h65 : opcode &&& 0xFF = 0x0065
    · rw [h65] at hrun
      obtain ⟨a1, ha1, hrun⟩ := except_bind_eq_ok hrun
      exact delay_of_ok hrun rfl
    rw [if_neg h65] at hrun
    exact delay_of_ok hrun rfl
  rw [if_neg hF] at hrun
  exact delay_of_ok hrun rfl

/-- C9 (witness): a load-immediate cycle leaves the delay timer at 0. -/
theorem C9_witness :
    ((execute_cycle Cpu.new (Mem.new.load_program [0x60, 0x01]).1 (fun _ => false) 0).map
      fun p => p.1.delay_timer) = .ok 0 := by
  cases hrun : execute_cycle Cpu.new (Mem.new.load_program [0x60, 0x01]).1 (fun _ => false) 0 with
  | error e =>
      have hok : (execute_cycle Cpu.new (Mem.new.load_program [0x60, 0x01]).1
          (fun _ => false) 0).isOk = true := rfl
      rw [hrun] at hok
      simp [Except.isOk, Except.toBool] at hok
  | ok p =>
      have hd := C9_delay_timer Cpu.new (Mem.new.load_program [0x60, 0x01]).1
        (fun _ => false) 0 0x6001 p.1 p.2 rfl (by rw [hrun]) (by decide)
      simp [Except.map, hd, Cpu.new]

/-- C1 (amended): every recognized instruction outside
    {jump, call, return, jump-with-offset, skip-family} advances the
    program counter by exactly 2 — EXCEPT the set-sound-timer opcode
    `0xFX18`, whose arm is an empty block leaving all state (including
    the PC) unchanged, and wait-for-key `0xFX0A` when no key is pressed
    (which leaves the PC unchanged; with a key pressed it advances
    by 2). -/
theorem C1_pc_advance (cpu : Cpu) (mem : Mem) (keypad : Nat → Bool) (rand : Nat)
    (opcode : Nat) (cpu' : Cpu) (mem' : Mem)
    (hfetch : mem.fetch_opcode cpu.program_counter = .ok opcode)
    (hrun : execute_cycle cpu mem keypad rand = .ok (cpu', mem'))
    (hsel : (opcode &&& 0xF000 = 0x0000 ∧ opcode &&& 0x000F = 0x000) ∨
      opcode &&& 0xF000 = 0x6000 ∨ opcode &&& 0xF000 = 0x7000 ∨
      opcode &&& 0xF000 = 0x8000 ∨ opcode &&& 0xF000 = 0xA000 ∨
      opcode &&& 0xF000 = 0xC000 ∨ opcode &&& 0xF000 = 0xD000 ∨
      (opcode &&& 0xF000 = 0xF000 ∧
        (opcode &&& 0xFF = 0x0007 ∨ opcode &&& 0xFF = 0x0015 ∨ opcode &&& 0xFF = 0x001E ∨
         opcode &&& 0xFF = 0x0029 ∨ opcode &&& 0xFF = 0x0033 ∨ opcode &&& 0xFF = 0x0055 ∨
         opcode &&& 0xFF = 0x0065)) ∨
      (opcode &&& 0xF000 = 0xF000 ∧ opcode &&& 0xFF = 0x000A ∧
        keypadPosition keypad ≠ none)) :
    cpu'.program_counter = (cpu.program_counter + 2) % 65536 := by
  unfold execute_cycle at hrun
  rw [hfetch] at hrun
  simp only [Except.bind] at hrun
  unfold execute_opcode at hrun
  rcases hsel with ⟨h0, h00⟩ | h6 | h7 | h8 | hA | hC | hD | ⟨hF, hlow⟩ | ⟨hF, h0A, hkey⟩
  · rw [h0, h00] at hrun
    exact pc_of_ok hrun (inc2_pc_eq rfl)
  · rw [h6] at hrun
    obtain ⟨a1, ha1, hrun⟩ := except_bind_eq_ok hrun
    exact pc_of_ok hrun (inc2_pc_eq (set_register_value_pc ha1))
  · rw [h7] at hrun
    obtain ⟨a1, ha1, hrun⟩ := except_bind_eq_ok hrun
    exact pc_of_ok hrun (inc2_pc_eq (set_register_value_pc ha1))
  · rw [h8] at hrun
    obtain ⟨a1, ha1, hrun⟩ := except_bind_eq_ok hrun
    exact pc_of_ok hrun (inc2_pc_eq (execute_alu_pc ha1))
  · rw [hA] at hrun
    exact pc_of_ok hrun (inc2_pc_eq rfl)
  · rw [hC] at hrun
    exact pc_of_ok hrun (inc2_pc_eq rfl)
  · rw [hD] at hrun
    obtain ⟨a1, ha1, hrun⟩ := except_bind_eq_ok hrun
    exact pc_of_ok hrun (inc2_pc_eq rfl)
  · rw [hF] at hrun
    rcases hlow with h07 | h15 | h1E | h29 | h33 | h55 | h65
    · rw [h07] at hrun
      obtain ⟨a1, ha1, hrun⟩ := except_bind_eq_ok hrun
      exact pc_of_ok hrun (inc2_pc_eq (set_register_value_pc ha1))
    · rw [h15] at hrun
      exact pc_of_ok hrun (inc2_pc_eq rfl)
    · rw [h1E] at hrun
      exact pc_of_ok hrun (inc2_pc_eq rfl)
    · rw [h29] at hrun
      exact pc_of_ok hrun (inc2_pc_eq rfl)
    · rw [h33] at hrun
      obtain ⟨a1, ha1, hrun⟩ := except_bind_eq_ok hrun
      obtain ⟨a2, ha2, hrun⟩ := except_bind_eq_ok hrun
      obtain ⟨a3, ha3, hrun⟩ := except_bind_eq_ok hrun
      exact pc_of_ok hrun (inc2_pc_eq rfl)
    · rw [h55] at hrun
      obtain ⟨a1, ha1, hrun⟩ := except_bind_eq_ok hrun
      exact pc_of_ok hrun (inc2_pc_eq rfl)
    · rw [h65] at hrun
      obtain ⟨a1, ha1, hrun⟩ := except_bind_eq_ok hrun
      exact pc_of_ok hrun (inc2_pc_eq rfl)
  · rw [hF, h0A] at hrun
    obtain ⟨k, hk⟩ := Option.ne_none_iff_exists'.mp hkey
    rw [hk] at hrun
    obtain ⟨a1, ha1, hrun⟩ := except_bind_eq_ok hrun
    exact pc_of_ok hrun (inc2_pc_eq (set_register_value_pc ha1))

/-- C1 (counterexample): the recognized set-sound-timer instruction
    `0xF018` is outside {jump, call, return, jump-with-offset, skip*}
    yet leaves the program counter at 0x200 instead of advancing it to
    0x202. -/
theorem C1_counterexample :
    ((execute_cycle Cpu.new (Mem.new.load_program [0xF0, 0x18]).1 (fun _ => false) 0).map
      fun p => p.1.program_counter) = .ok 0x200 ∧ (0x200 : Nat) ≠ 0x200 + 2 :=
  ⟨rfl, by decide⟩

/-- C1 (witness): a load-immediate cycle advances the PC from 0x200 to
    0x202. -/
theorem C1_witness :
    ((execute_cycle Cpu.new (Mem.new.load_program [0x60, 0x01]).1 (fun _ => false) 0).map
      fun p => p.1.program_counter) = .ok 0x202 := by
  cases hrun : execute_cycle Cpu.new (Mem.new.load_program [0x60, 0x01]).1 (fun _ => false) 0 with
  | error e =>
      have hok : (execute_cycle Cpu.new (Mem.new.load_program [0x60, 0x01]).1
          (fun _ => false) 0).isOk = true := rfl
      rw [hrun] at hok
      simp [Except.isOk, Except.toBool] at hok
  | ok p =>
      have hp := C1_pc_advance Cpu.new (Mem.new.load_program [0x60, 0x01]).1
        (fun _ => false) 0 0x6001 p.1 p.2 rfl (by rw [hrun])
        (Or.inr (Or.inl (by decide)))
      simp [Except.map, hp, Cpu.new]

theorem pcmod_of_ok {A cpu1 : Cpu} {B mem1 : Mem} {q : Nat}
    (h : (Except.ok (A, B) : Except Fault (Cpu × Mem)) = .ok (cpu1, mem1))
    (hA : A.program_counter % 2 = q) : cpu1.program_counter % 2 = q := by
  rw [pair_fst_of_ok h]
  exact hA

theorem inc_pc_parity {c cpu0 : Cpu} {k : Nat} (hk : k % 2 = 0)
    (h : c.program_counter = cpu0.program_counter) :
    (c.increase_program_counter k).program_counter % 2 = cpu0.program_counter % 2 := by
  simp only [Cpu.increase_program_counter, h]
  omega

/-- C2 (counterexample): the jump program `[0x10, 0x01]` drives the
    program counter of a freshly loaded machine to 0x001 after one
    cycle — an odd address below 0x200, violating the claimed invariant
    for reachable states. -/
theorem C2_counterexample :
    (((Chip8.new.load_program [0x10, 0x01]).1.run_cycle (fun _ => false) 0).map
      fun c => c.cpu.program_counter) = .ok 0x001 ∧
    ¬(0x001 % 2 = 0 ∧ 0x200 ≤ 0x001 ∧ 0x001 < 0x1000) :=
  ⟨rfl, by decide⟩

/-- C2 (amended): the program counter of a freshly constructed machine
    with any loaded program starts at 0x200 — an even address within
    [0x200, 0x1000) — and its evenness (mod the 16-bit wraparound) is
    preserved by every cycle whose fetched opcode is not a jump
    (0x1NNN), call (0x2NNN), jump-with-offset (0xBNNN) or return
    (family 0x0, low nibble 0xE); the full range-and-evenness invariant
    does not hold for arbitrary programs (a jump may target any 12-bit
    address). -/
theorem C2_pc_invariant :
    (∀ program : List Nat,
      (Chip8.new.load_program program).1.cpu.program_counter = 0x200 ∧
      0x200 % 2 = 0 ∧ 0x200 ≤ 0x200 ∧ 0x200 < 0x1000) ∧
    (∀ (c : Chip8) (keypad : Nat → Bool) (rand : Nat) (c' : Chip8) (opcode : Nat),
      c.mem.fetch_opcode c.cpu.program_counter = .ok opcode →
      c.run_cycle keypad rand = .ok c' →
      opcode &&& 0xF000 ≠ 0x1000 → opcode &&& 0xF000 ≠ 0x2000 →
      opcode &&& 0xF000 ≠ 0xB000 →
      ¬(opcode &&& 0xF000 = 0x0000 ∧ opcode &&& 0x000F = 0x00E) →
      c'.cpu.program_counter % 2 = c.cpu.program_counter % 2) := by
  constructor
  · intro program
    exact ⟨rfl, by decide, by decide, by decide⟩
  intro c keypad rand c' opcode hfetch hrun hjump hcall hjwo hret
  unfold Chip8.run_cycle at hrun
  obtain ⟨cm, hcm, hrun⟩ := except_bind_eq_ok hrun
  injection hrun with h1
  rw [← h1]
  show cm.1.program_counter % 2 = c.cpu.program_counter % 2
  unfold execute_cycle at hcm
  rw [hfetch] at hcm
  simp only [Except.bind] at hcm
  unfold execute_opcode at hcm
  by_cases h0 : opcode &&& 0xF000 = 0x0000
  · rw [h0] at hcm
    by_cases h00 : opcode &&& 0x000F = 0x000
    · rw [h00] at hcm
      exact pcmod_of_ok hcm (inc_pc_parity (by decide) rfl)
    · rw [if_neg h00] at hcm
      by_cases h0E : opcode &&& 0x000F = 0x00E
      · exact absurd ⟨h0, h0E⟩ hret
      · rw [if_neg h0E] at hcm
        exact pcmod_of_ok hcm rfl
  rw [if_neg h0] at hcm
  by_cases h1' : opcode &&& 0xF000 = 0x1000
  · exact absurd h1' hjump
  rw [if_neg h1'] at hcm
  by_cases h2 : opcode &&& 0xF000 = 0x2000
  · exact absurd h2 hcall
  rw [if_neg h2] at hcm
  by_cases h3 : opcode &&& 0xF000 = 0x3000
  · rw [h3] at hcm
    by_cases hc : opcode &&& 0x00FF = c.cpu.registers ((opcode >>> 8) &&& 0xF)
    · rw [if_pos hc] at hcm
      exact pcmod_of_ok hcm (inc_pc_parity (by decide) rfl)
    · rw [if_neg hc] at hcm
      exact pcmod_of_ok hcm (inc_pc_parity (by decide) rfl)
  rw [if_neg h3] at hcm
  by_cases h4 : opcode &&& 0xF000 = 0x4000
  · rw [h4] at hcm
    by_cases hc : opcode &&& 0x00FF ≠ c.cpu.registers ((opcode >>> 8) &&& 0xF)
    · rw [if_pos hc] at hcm
      exact pcmod_of_ok hcm (inc_pc_parity (by decide) rfl)
    · rw [if_neg hc] at hcm
      exact pcmod_of_ok hcm (inc_pc_parity (by decide) rfl)
  rw [if_neg h4] at hcm
  by_cases h5 : opcode &&& 0xF000 = 0x5000
  · rw [h5] at hcm
    by_cases hc : c.cpu.registers ((opcode >>> 8) &&& 0x0F) =
        c.cpu.registers ((opcode >>> 4) &&& 0x0F)
    · rw [if_pos hc] at hcm
      exact pcmod_of_ok hcm (inc_pc_parity (by decide) rfl)
    · rw [if_neg hc] at hcm
      exact pcmod_of_ok hcm (inc_pc_parity (by decide) rfl)
  rw [if_neg h5] at hcm
  by_cases h6 : opcode &&& 0xF000 = 0x6000
  · rw [h6] at hcm
    obtain ⟨a1, ha1, hcm⟩ := except_bind_eq_ok hcm
    exact pcmod_of_ok hcm (inc_pc_parity (by decide) (set_register_value_pc ha1))
  rw [if_neg h6] at hcm
  by_cases h7 : opcode &&& 0xF000 = 0x7000
  · rw [h7] at hcm
    obtain ⟨a1, ha1, hcm⟩ := except_bind_eq_ok hcm
    exact pcmod_of_ok hcm (inc_pc_parity (by decide) (set_register_value_pc ha1))
  rw [if_neg h7] at hcm
  by_cases h8 : opcode &&& 0xF000 = 0x8000
  · rw [h8] at hcm
    obtain ⟨a1, ha1, hcm⟩ := except_bind_eq_ok hcm
    exact pcmod_of_ok hcm (inc_pc_parity (by decide) (execute_alu_pc ha1))
  rw [if_neg h8] at hcm
  by_cases h9 : opcode &&& 0xF000 = 0x9000
  · rw [h9] at hcm
    by_cases hc : c.cpu.registers ((opcode >>> 8) &&& 0x0F) =
        c.cpu.registers ((opcode >>> 4) &&& 0x0F)
    · rw [if_pos hc] at hcm
      exact pcmod_of_ok hcm (inc_pc_parity (by decide) rfl)
    · rw [if_neg hc] at hcm
      exact pcmod_of_ok hcm (inc_pc_parity (by decide) rfl)
  rw [if_neg h9] at hcm
  by_cases hA : opcode &&& 0xF000 = 0xA000
  · rw [hA] at hcm
    exact pcmod_of_ok hcm (inc_pc_parity (by decide) rfl)
  rw [if_neg hA] at hcm
  by_cases hB : opcode &&& 0xF000 = 0xB000
  · exact absurd hB hjwo
  rw [if_neg hB] at hcm
  by_cases hC : opcode &&& 0xF000 = 0xC000
  · rw [hC] at hcm
    exact pcmod_of_ok hcm (inc_pc_parity (by decide) rfl)
  rw [if_neg hC] at hcm
  by_cases hD : opcode &&& 0xF000 = 0xD000
  · rw [hD] at hcm
    obtain ⟨a1, ha1, hcm⟩ := except_bind_eq_ok hcm
    exact pcmod_of_ok hcm (inc_pc_parity (by decide) rfl)
  rw [if_neg hD] at hcm
  by_cases hE : opcode &&& 0xF000 = 0xE000
  · rw [hE] at hcm
    by_cases h9E : opcode &&& 0x00FF = 0x009E
    · rw [h9E] at hcm
      by_cases hk : c.cpu.registers ((opcode >>> 8) &&& 0x0F) < 16
      · rw [if_pos hk] at hcm
        by_cases hkey : keypad (c.cpu.registers ((opcode >>> 8) &&& 0x0F)) = true
        · rw [if_pos hkey] at hcm
          exact pcmod_of_ok hcm (inc_pc_parity (by decide) rfl)
        · rw [if_neg hkey] at hcm
          exact pcmod_of_ok hcm rfl
      · rw [if_neg hk] at hcm
        exact Except.noConfusion hcm
    · rw [if_neg h9E] at hcm
      by_cases hA1 : opcode &&& 0x00FF = 0x00A1
      · rw [hA1] at hcm
        by_cases hk : c.cpu.registers ((opcode >>> 8) &&& 0x0F) < 16
        · rw [if_pos hk] at hcm
          by_cases hkey : keypad (c.cpu.registers ((opcode >>> 8) &&& 0x0F)) = true
          · rw [if_pos hkey] at hcm
            exact pcmod_of_ok hcm rfl
          · rw [if_neg hkey] at hcm
            exact pcmod_of_ok hcm (inc_pc_parity (by decide) rfl)
        · rw [if_neg hk] at hcm
          exact Except.noConfusion hcm
      · rw [if_neg hA1] at hcm
        exact pcmod_of_ok hcm rfl
  rw [if_neg hE] at hcm
  by_cases hF : opcode &&& 0xF000 = 0xF000
  · rw [hF] at hcm
    by_cases h07 : opcode &&& 0xFF = 0x0007
    · rw [h07] at hcm
      obtain ⟨a1, ha1, hcm⟩ := except_bind_eq_ok hcm
      exact pcmod_of_ok hcm (inc_pc_parity (by decide) (set_register_value_pc ha1))
    rw [if_neg h07] at hcm
    by_cases h0A : opcode &&& 0xFF = 0x000A
    · rw [h0A] at hcm
      cases hp : keypadPosition keypad with
      | some k =>
          rw [hp] at hcm
          obtain ⟨a1, ha1, hcm⟩ := except_bind_eq_ok hcm
          exact pcmod_of_ok hcm (inc_pc_parity (by decide) (set_register_value_pc ha1))
      | none =>
          rw [hp] at hcm
          exact pcmod_of_ok hcm rfl
    rw [if_neg h0A] at hcm
    by_cases h15 : opcode &&& 0xFF = 0x0015
    · rw [h15] at hcm
      exact pcmod_of_ok hcm (inc_pc_parity (by decide) rfl)
    rw [if_neg h15] at hcm
    by_cases h18 : opcode &&& 0xFF = 0x0018
    · rw [h18] at hcm
      exact pcmod_of_ok hcm rfl
    rw [if_neg h18] at hcm
    by_cases h1E : opcode &&& 0xFF = 0x001E
    · rw [h1E] at hcm
      exact pcmod_of_ok hcm (inc_pc_parity (by decide) rfl)
    rw [if_neg h1E] at hcm
    by_cases h29 : opcode &&& 0xFF = 0x0029
    · rw [h29] at hcm
      exact pcmod_of_ok hcm (inc_pc_parity (by decide) rfl)
    rw [if_neg h29] at hcm
    by_cases h33 : opcode &&& 0xFF = 0x0033
    · rw [h33] at hcm
      obtain ⟨a1, ha1, hcm⟩ := except_bind_eq_ok hcm
      obtain ⟨a2, ha2, hcm⟩ := except_bind_eq_ok hcm
      obtain ⟨a3, ha3, hcm⟩ := except_bind_eq_ok hcm
      exact pcmod_of_ok hcm (inc_pc_parity (by decide) rfl)
    rw [if_neg h33] at hcm
    by_cases h55 : opcode &&& 0xFF = 0x0055
    · rw [h55] at hcm
      obtain ⟨a1, ha1, hcm⟩ := except_bind_eq_ok hcm
      exact pcmod_of_ok hcm (inc_pc_parity (by decide) rfl)
    rw [if_neg h55] at hcm
    by_cases h65 : opcode &&& 0xFF = 0x0065
    · rw [h65] at hcm
      obtain ⟨a1, ha1, hcm⟩ := except_bind_eq_ok hcm
      exact pcmod_of_ok hcm (inc_pc_parity (by decide) rfl)
    rw [if_neg h65] at hcm
    exact pcmod_of_ok hcm rfl
  rw [if_neg hF] at hcm
  exact pcmod_of_ok hcm rfl

/-- C2 (witness): one load-immediate cycle from a freshly loaded
    machine keeps the program counter even. -/
theorem C2_witness :
    (((Chip8.new.load_program [0x60, 0x01]).1.run_cycle (fun _ => false) 0).map
      fun c => c.cpu.program_counter % 2) = .ok 0 := by
  cases hrun : (Chip8.new.load_program [0x60, 0x01]).1.run_cycle (fun _ => false) 0 with
  | error e =>
      have hok : ((Chip8.new.load_program [0x60, 0x01]).1.run_cycle
          (fun _ => false) 0).isOk = true := rfl
      rw [hrun] at hok
      simp [Except.isOk, Except.toBool] at hok
  | ok c' =>
      have hp := C2_pc_invariant.2 (Chip8.new.load_program [0x60, 0x01]).1
        (fun _ => false) 0 c' 0x6001 rfl hrun (by decide) (by decide) (by decide) (by decide)
      simp [Except.map, hp]
      rfl

theorem shiftLeft_six (ya : Nat) : ya <<< 6 = ya * 64 := by
  rw [Nat.shiftLeft_eq]

theorem graphics_index_lt {a ya : Nat} (ha : a < 64) (hy : ya < 64) :
    a + (ya <<< 6) < 4096 := by
  have h1 := shiftLeft_six ya
  omega

theorem graphics_index_ne {a b ya yb : Nat} (ha : a < 64) (hb : b < 64) (hy : ya ≠ yb) :
    a + (ya <<< 6) ≠ b + (yb <<< 6) := by
  have h1 := shiftLeft_six ya
  have h2 := shiftLeft_six yb
  omega

/-- Characterization of the inner column loop of the sprite draw: over a
    duplicate-free list of columns whose set-bit targets are in range
    and all hold the same pixel value `v`, the loop succeeds, touches
    exactly the set-bit targets (toggling them to `v ^^^ 1`, stored with
    the opaque-alpha tag), leaves memory/stack alone, and raises the
    collision accumulator exactly when `v = 1` and some bit is set. -/
theorem draw_cols_spec (pixel x ybase v : Nat) (cols : List Nat) (m : Mem) (vf : Nat)
    (hnd : cols.Nodup)
    (hin : ∀ c ∈ cols, pixel &&& (0x80 >>> c) ≠ 0 →
      x + c < 64 ∧ ybase < 64 ∧ m.graphics ((x + c) + (ybase <<< 6)) &&& 0xFF = v) :
    ∃ m1 vf1, draw_cols pixel x ybase cols (m, vf) = .ok (m1, vf1) ∧
      m1.memory = m.memory ∧ m1.stack = m.stack ∧ m1.stack_pointer = m.stack_pointer ∧
      (∀ c ∈ cols, pixel &&& (0x80 >>> c) ≠ 0 →
        m1.graphics ((x + c) + (ybase <<< 6)) = (v ^^^ 1) ||| 0xFF00) ∧
      (∀ i : Nat, (∀ c ∈ cols, pixel &&& (0x80 >>> c) ≠ 0 → i ≠ (x + c) + (ybase <<< 6)) →
        m1.graphics i = m.graphics i) ∧
      vf1 = (if v = 1 ∧ ∃ c ∈ cols, pixel &&& (0x80 >>> c) ≠ 0 then 1 else vf) := by
  induction cols generalizing m vf with
  | nil =>
      refine ⟨m, vf, rfl, rfl, rfl, rfl, by simp, fun i _ => rfl, by simp⟩
  | cons c rest ih =>
      have hnd' : rest.Nodup := (List.nodup_cons.mp hnd).2
      have hcnotin : c ∉ rest := (List.nodup_cons.mp hnd).1
      by_cases hbit : pixel &&& (0x80 >>> c) ≠ 0
      · obtain ⟨hxc, hyb, hval⟩ := hin c (List.mem_cons_self c rest) hbit
        have hidx : (x + c) + (ybase <<< 6) < 4096 := graphics_index_lt hxc hyb
        have hstep : draw_col_step pixel x ybase c (m, vf) =
            .ok ({ m with graphics := (updateFn m.graphics ((x + c) + (ybase <<< 6))
                    ((v ^^^ 1) ||| 0xFF00)) },
                 if v = 1 then 1 else vf) := by
          unfold draw_col_step Mem.fetch_graphics Mem.store_graphics
          rw [if_pos hbit]
          simp only [hidx, if_true, Except.bind, hval]
        have hin' : ∀ c' ∈ rest, pixel &&& (0x80 >>> c') ≠ 0 →
            x + c' < 64 ∧ ybase < 64 ∧
            ({ m with graphics := (updateFn m.graphics ((x + c) + (ybase <<< 6))
                ((v ^^^ 1) ||| 0xFF00)) }).graphics ((x + c') + (ybase <<< 6)) &&& 0xFF = v := by
          intro c' hc' hb'
          obtain ⟨h1, h2, h3⟩ := hin c' (List.mem_cons_of_mem _ hc') hb'
          refine ⟨h1, h2, ?_⟩
          have hne : (x + c') + (ybase <<< 6) ≠ (x + c) + (ybase <<< 6) := by
            have hcc : c' ≠ c := fun h => hcnotin (h ▸ hc')
            omega
          show updateFn m.graphics ((x + c) + (ybase <<< 6)) ((v ^^^ 1) ||| 0xFF00)
              ((x + c') + (ybase <<< 6)) &&& 0xFF = v
          rw [updateFn_other _ hne]
          exact h3
        obtain ⟨m1, vf1, heq, hmem, hstk, hsp, htouch, huntouch, hvf⟩ :=
          ih ({ m with graphics := (updateFn m.graphics ((x + c) + (ybase <<< 6))
                ((v ^^^ 1) ||| 0xFF00)) }) (if v = 1 then 1 else vf) hnd' hin'
        refine ⟨m1, vf1, ?_, ?_, ?_, ?_, ?_, ?_, ?_⟩
        · simp only [draw_cols]
          rw [hstep]
          simp only [Except.bind]
          exact heq
        · rw [hmem]
        · rw [hstk]
        · rw [hsp]
        · intro c' hc' hb'
          rcases List.mem_cons.mp hc' with rfl | hc2
          · have hne : ∀ c'' ∈ rest, pixel &&& (0x80 >>> c'') ≠ 0 →
                (x + c') + (ybase <<< 6) ≠ (x + c'') + (ybase <<< 6) := by
              intro c'' hc'' hb''
              have hcc : c' ≠ c'' := fun h => hcnotin (h ▸ hc'')
              omega
            rw [huntouch _ hne]
            show updateFn m.graphics ((x + c') + (ybase <<< 6)) ((v ^^^ 1) ||| 0xFF00)
                ((x + c') + (ybase <<< 6)) = (v ^^^ 1) ||| 0xFF00
            rw [updateFn_same]
          · exact htouch c' hc2 hb'
        · intro i hi
          have h1 : m1.graphics i = updateFn m.graphics ((x + c) + (ybase <<< 6))
              ((v ^^^ 1) ||| 0xFF00) i :=
            huntouch i (fun c' hc' hb' => hi c' (List.mem_cons_of_mem _ hc') hb')
          rw [h1, updateFn_other _ (hi c (List.mem_cons_self c rest) hbit)]
        · by_cases hv : v = 1
          · have hex : ∃ c' ∈ c :: rest, pixel &&& (0x80 >>> c') ≠ 0 :=
              ⟨c, List.mem_cons_self c rest, hbit⟩
            rw [if_pos ⟨hv, hex⟩]
            rcases Classical.em (∃ c' ∈ rest, pixel &&& (0x80 >>> c') ≠ 0) with hr | hr
            · rw [if_pos ⟨hv, hr⟩] at hvf
              exact hvf
            · rw [if_neg (fun hq => hr hq.2), if_pos hv] at hvf
              exact hvf
          · have hvf2 : vf1 = vf := by
              rw [hvf, if_neg (fun hq => hv hq.1), if_neg hv]
            rw [hvf2, if_neg (fun hq => hv hq.1)]
      · have hstep : draw_col_step pixel x ybase c (m, vf) = .ok (m, vf) := by
          unfold draw_col_step
          rw [if_neg hbit]
        obtain ⟨m1, vf1, heq, hmem, hstk, hsp, htouch, huntouch, hvf⟩ :=
          ih m vf hnd' (fun c' hc' hb' => hin c' (List.mem_cons_of_mem _ hc') hb')
        refine ⟨m1, vf1, ?_, hmem, hstk, hsp, ?_, ?_, ?_⟩
        · simp only [draw_cols]
          rw [hstep]
          simp only [Except.bind]
          exact heq
        · intro c' hc' hb'
          rcases List.mem_cons.mp hc' with rfl | h
          · exact absurd hb' hbit
          · exact htouch c' h hb'
        · intro i hi
          exact huntouch i (fun c' h hb' => hi c' (List.mem_cons_of_mem _ h) hb')
        · rcases Classical.em (v = 1 ∧ ∃ c' ∈ rest, pixel &&& (0x80 >>> c') ≠ 0) with hp | hp
          · obtain ⟨hv1, c', hc', hb⟩ := hp
            rw [hvf, if_pos ⟨hv1, c', hc', hb⟩,
              if_pos (⟨hv1, c', List.mem_cons_of_mem _ hc', hb⟩ :
                v = 1 ∧ ∃ c' ∈ c :: rest, pixel &&& (0x80 >>> c') ≠ 0)]
          · have hq : ¬(v = 1 ∧ ∃ c' ∈ c :: rest, pixel &&& (0x80 >>> c') ≠ 0) := by
              rintro ⟨hv1, c', hc', hb⟩
              rcases List.mem_cons.mp hc' with rfl | hr
              · exact hbit hb
              · exact hp ⟨hv1, c', hr, hb⟩
            rw [hvf, if_neg hp, if_neg hq]

/-- Characterization of the outer row loop of the sprite draw, composing
    `draw_cols_spec` row by row: sprite bytes are read from memory
    (which the draw never modifies), every set-bit target pixel is
    toggled from the uniform value `v` to `v ^^^ 1`, all other pixels
    are untouched, and the collision flag accumulator becomes 1 exactly
    when `v = 1` and the sprite has at least one set bit. -/
theorem draw_rows_spec (I x y v : Nat) (rows : List Nat) (m : Mem) (vf : Nat)
    (hnd : rows.Nodup)
    (hin : ∀ r ∈ rows, I + r < 4096 ∧
      ∀ c, c < 8 → m.memory (I + r) &&& (0x80 >>> c) ≠ 0 →
        x + c < 64 ∧ y + r < 64 ∧ m.graphics ((x + c) + ((y + r) <<< 6)) &&& 0xFF = v) :
    ∃ m1 vf1, draw_rows I x y rows (m, vf) = .ok (m1, vf1) ∧
      m1.memory = m.memory ∧ m1.stack = m.stack ∧ m1.stack_pointer = m.stack_pointer ∧
      (∀ r ∈ rows, ∀ c, c < 8 → m.memory (I + r) &&& (0x80 >>> c) ≠ 0 →
        m1.graphics ((x + c) + ((y + r) <<< 6)) = (v ^^^ 1) ||| 0xFF00) ∧
      (∀ i : Nat, (∀ r ∈ rows, ∀ c, c < 8 → m.memory (I + r) &&& (0x80 >>> c) ≠ 0 →
          i ≠ (x + c) + ((y + r) <<< 6)) → m1.graphics i = m.graphics i) ∧
      vf1 = (if v = 1 ∧ ∃ r ∈ rows, ∃ c, c < 8 ∧ m.memory (I + r) &&& (0x80 >>> c) ≠ 0
             then 1 else vf) := by
  induction rows generalizing m vf with
  | nil =>
      refine ⟨m, vf, rfl, rfl, rfl, rfl, by simp, fun i _ => rfl, by simp⟩
  | cons r rest ih =>
      have hnd' : rest.Nodup := (List.nodup_cons.mp hnd).2
      have hrnotin : r ∉ rest := (List.nodup_cons.mp hnd).1
      obtain ⟨hIr, hrow⟩ := hin r (List.mem_cons_self r rest)
      have hfetch : Mem.fetch m ((I + r) % 65536) = .ok (m.memory (I + r)) := by
        rw [Nat.mod_eq_of_lt (by omega : I + r < 65536)]
        unfold Mem.fetch
        rw [if_pos hIr]
      obtain ⟨m2, vf2, heqc, hmemc, hstkc, hspc, htouchc, huntouchc, hvfc⟩ :=
        draw_cols_spec (m.memory (I + r)) x (y + r) v (List.range 8) m vf (List.nodup_range 8)
          (fun c hc hb => hrow c (List.mem_range.mp hc) hb)
      have hin' : ∀ r' ∈ rest, I + r' < 4096 ∧
          ∀ c, c < 8 → m2.memory (I + r') &&& (0x80 >>> c) ≠ 0 →
            x + c < 64 ∧ y + r' < 64 ∧
            m2.graphics ((x + c) + ((y + r') <<< 6)) &&& 0xFF = v := by
        intro r' hr'
        obtain ⟨hI2, hrow2⟩ := hin r' (List.mem_cons_of_mem _ hr')
        refine ⟨hI2, ?_⟩
        intro c hc hb
        rw [hmemc] at hb
        obtain ⟨h1, h2, h3⟩ := hrow2 c hc hb
        refine ⟨h1, h2, ?_⟩
        have hne : ∀ c0 ∈ List.range 8, m.memory (I + r) &&& (0x80 >>> c0) ≠ 0 →
            (x + c) + ((y + r') <<< 6) ≠ (x + c0) + ((y + r) <<< 6) := by
          intro c0 hc0 hb0
          have hrr : r' ≠ r := fun h => hrnotin (h ▸ hr')
          exact graphics_index_ne h1 (hrow c0 (List.mem_range.mp hc0) hb0).1 (by omega)
        rw [huntouchc _ hne]
        exact h3
      obtain ⟨m1, vf1, heq, hmem, hstk, hsp, htouch, huntouch, hvf⟩ := ih m2 vf2 hnd' hin'
      rw [hmemc] at htouch huntouch hvf
      refine ⟨m1, vf1, ?_, ?_, ?_, ?_, ?_, ?_, ?_⟩
      · simp only [draw_rows]
        rw [hfetch]
        simp only [Except.bind]
        rw [heqc]
        simp only [Except.bind]
        exact heq
      · rw [hmem, hmemc]
      · rw [hstk, hstkc]
      · rw [hsp, hspc]
      · intro r' hr' c hc hb
        rcases List.mem_cons.mp hr' with rfl | hr2
        · have hne : ∀ r'' ∈ rest, ∀ c'', c'' < 8 →
              m.memory (I + r'') &&& (0x80 >>> c'') ≠ 0 →
              (x + c) + ((y + r') <<< 6) ≠ (x + c'') + ((y + r'') <<< 6) := by
            intro r'' hr'' c'' hc'' hb''
            have hrr : r' ≠ r'' := fun h => hrnotin (h ▸ hr'')
            obtain ⟨hI3, hrow3⟩ := hin r'' (List.mem_cons_of_mem _ hr'')
            exact graphics_index_ne (hrow c hc hb).1 (hrow3 c'' hc'' hb'').1 (by omega)
          rw [huntouch _ hne]
          exact htouchc c (List.mem_range.mpr hc) hb
        · exact htouch r' hr2 c hc hb
      · intro i hi
        have h1 : m1.graphics i = m2.graphics i :=
          huntouch i (fun r' hr' c hc hb => hi r' (List.mem_cons_of_mem _ hr') c hc hb)
        rw [h1]
        exact huntouchc i (fun c0 hc0 hb0 =>
          hi r (List.mem_cons_self r rest) c0 (List.mem_range.mp hc0) hb0)
      · by_cases hv : v = 1
        · by_cases hP : ∃ c0 ∈ List.range 8, m.memory (I + r) &&& (0x80 >>> c0) ≠ 0
          · have hR : ∃ r' ∈ r :: rest, ∃ c0, c0 < 8 ∧
                m.memory (I + r') &&& (0x80 >>> c0) ≠ 0 := by
              obtain ⟨c0, hc0, hb0⟩ := hP
              exact ⟨r, List.mem_cons_self r rest, c0, List.mem_range.mp hc0, hb0⟩
            rw [if_pos ⟨hv, hR⟩]
            rcases Classical.em (∃ r' ∈ rest, ∃ c0, c0 < 8 ∧
                m.memory (I + r') &&& (0x80 >>> c0) ≠ 0) with hQ | hQ
            · rw [if_pos ⟨hv, hQ⟩] at hvf
              exact hvf
            · rw [if_neg (fun hq => hQ hq.2)] at hvf
              rw [hvfc, if_pos ⟨hv, hP⟩] at hvf
              exact hvf
          · by_cases hQ : ∃ r' ∈ rest, ∃ c0, c0 < 8 ∧
                m.memory (I + r') &&& (0x80 >>> c0) ≠ 0
            · rw [if_pos ⟨hv, hQ⟩] at hvf
              have hR : ∃ r' ∈ r :: rest, ∃ c0, c0 < 8 ∧
                  m.memory (I + r') &&& (0x80 >>> c0) ≠ 0 := by
                obtain ⟨r', hr', c0, hc0, hb0⟩ := hQ
                exact ⟨r', List.mem_cons_of_mem _ hr', c0, hc0, hb0⟩
              rw [if_pos ⟨hv, hR⟩]
              exact hvf
            · rw [if_neg (fun hq => hQ hq.2)] at hvf
              rw [hvfc, if_neg (fun hq => hP hq.2)] at hvf
              have hR : ¬(v = 1 ∧ ∃ r' ∈ r :: rest, ∃ c0, c0 < 8 ∧
                  m.memory (I + r') &&& (0x80 >>> c0) ≠ 0) := by
                rintro ⟨hv1, r', hr', c0, hc0, hb0⟩
                rcases List.mem_cons.mp hr' with rfl | hrr
                · exact hP ⟨c0, List.mem_range.mpr hc0, hb0⟩
                · exact hQ ⟨r', hrr, c0, hc0, hb0⟩
              rw [if_neg hR]
              exact hvf
        · have hvfc2 : vf2 = vf := by
            rw [hvfc, if_neg (fun hq => hv hq.1)]
          rw [hvfc2] at hvf
          rw [hvf, if_neg (fun hq => hv hq.1), if_neg (fun hq => hv hq.1)]

set_option maxHeartbeats 2000000 in
/-- C6: drawing the same `0xDXYN` sprite twice at the same coordinates
    (register indices X, Y distinct from the flag register, so the
    coordinates are unchanged by the first draw), with a sprite whose
    rows fit in memory and that has at least one set bit, all touched
    pixel coordinates in range, and all touched pixels initially off,
    leaves every touched pixel off (as read by `fetch_graphics`) and
    leaves register 15 equal to 1 after the second draw (collision).
    Sprite bytes live in `memory`, which the draw never writes, so they
    are unchanged between the two draws. -/
theorem C6_double_draw (cpu : Cpu) (mem : Mem) (keypad : Nat → Bool) (rand : Nat)
    (opcode : Nat)
    (hD : opcode &&& 0xF000 = 0xD000)
    (hrx : (opcode >>> 8) &&& 0x0F ≠ 15)
    (hry : (opcode >>> 4) &&& 0x0F ≠ 15)
    (hI : cpu.index + (opcode &&& 0x0F) ≤ 4096)
    (hbounds : ∀ r, r < opcode &&& 0x0F → ∀ c, c < 8 →
      mem.memory (cpu.index + r) &&& (0x80 >>> c) ≠ 0 →
      cpu.registers ((opcode >>> 8) &&& 0x0F) + c < 64 ∧
      cpu.registers ((opcode >>> 4) &&& 0x0F) + r < 64)
    (hoff : ∀ r, r < opcode &&& 0x0F → ∀ c, c < 8 →
      mem.memory (cpu.index + r) &&& (0x80 >>> c) ≠ 0 →
      mem.graphics ((cpu.registers ((opcode >>> 8) &&& 0x0F) + c) +
        ((cpu.registers ((opcode >>> 4) &&& 0x0F) + r) <<< 6)) &&& 0xFF = 0)
    (hsome : ∃ r, r < opcode &&& 0x0F ∧ ∃ c, c < 8 ∧
      mem.memory (cpu.index + r) &&& (0x80 >>> c) ≠ 0) :
    ∃ cpu1 mem1 cpu2 mem2,
      execute_opcode cpu mem keypad rand opcode = .ok (cpu1, mem1) ∧
      execute_opcode cpu1 mem1 keypad rand opcode = .ok (cpu2, mem2) ∧
      cpu2.registers 15 = 1 ∧
      ∀ r, r < opcode &&& 0x0F → ∀ c, c < 8 →
        mem.memory (cpu.index + r) &&& (0x80 >>> c) ≠ 0 →
        mem2.fetch_graphics (cpu.registers ((opcode >>> 8) &&& 0x0F) + c)
          (cpu.registers ((opcode >>> 4) &&& 0x0F) + r) = .ok 0 := by
  obtain ⟨m1, vf1, heq1, hmem1, hstk1, hsp1, htouch1, huntouch1, hvfA⟩ :=
    draw_rows_spec cpu.index (cpu.registers ((opcode >>> 8) &&& 0x0F))
      (cpu.registers ((opcode >>> 4) &&& 0x0F)) 0 (List.range (opcode &&& 0x0F)) mem 0
      (List.nodup_range (opcode &&& 0x0F))
      (fun r hr => ⟨by have := List.mem_range.mp hr; omega,
        fun c hc hb => ⟨(hbounds r (List.mem_range.mp hr) c hc hb).1,
          (hbounds r (List.mem_range.mp hr) c hc hb).2,
          hoff r (List.mem_range.mp hr) c hc hb⟩⟩)
  have hexec1 : execute_opcode cpu mem keypad rand opcode =
      .ok ((({ cpu with registers := (updateFn cpu.registers 15 vf1) }).increase_program_counter 2), m1) := by
    unfold execute_opcode
    rw [hD, heq1]
    rfl
  obtain ⟨m2, vf2, heq2, hmem2, hstk2, hsp2, htouch2, huntouch2, hvfB⟩ :=
    draw_rows_spec cpu.index (cpu.registers ((opcode >>> 8) &&& 0x0F))
      (cpu.registers ((opcode >>> 4) &&& 0x0F)) 1 (List.range (opcode &&& 0x0F)) m1 0
      (List.nodup_range (opcode &&& 0x0F))
      (fun r hr => ⟨by have := List.mem_range.mp hr; omega,
        fun c hc hb => by
          rw [hmem1] at hb
          refine ⟨(hbounds r (List.mem_range.mp hr) c hc hb).1,
            (hbounds r (List.mem_range.mp hr) c hc hb).2, ?_⟩
          rw [htouch1 r hr c hc hb]
          decide⟩)
  have hx1 : ((({ cpu with registers := (updateFn cpu.registers 15 vf1) }).increase_program_counter 2)).registers ((opcode >>> 8) &&& 0x0F) =
      cpu.registers ((opcode >>> 8) &&& 0x0F) := updateFn_other cpu.registers hrx vf1
  have hy1 : ((({ cpu with registers := (updateFn cpu.registers 15 vf1) }).increase_program_counter 2)).registers ((opcode >>> 4) &&& 0x0F) =
      cpu.registers ((opcode >>> 4) &&& 0x0F) := updateFn_other cpu.registers hry vf1
  have hexec2 : execute_opcode (({ cpu with registers := (updateFn cpu.registers 15 vf1) }).increase_program_counter 2) m1 keypad rand opcode =
      .ok ((({ (({ cpu with registers := (updateFn cpu.registers 15 vf1) }).increase_program_counter 2) with registers := (updateFn (({ cpu with registers := (updateFn cpu.registers 15 vf1) }).increase_program_counter 2).registers 15 vf2) }).increase_program_counter 2), m2) := by
    unfold execute_opcode
    rw [hD, hx1, hy1]
    have heq2A : draw_rows
        ((({ cpu with registers := (updateFn cpu.registers 15 vf1)
          }).increase_program_counter 2)).index
        (cpu.registers ((opcode >>> 8) &&& 0x0F)) (cpu.registers ((opcode >>> 4) &&& 0x0F))
        (List.range (opcode &&& 0x0F)) (m1, 0) = .ok (m2, vf2) := heq2
    rw [heq2A]
    rfl
  have hvf21 : vf2 = 1 := by
    obtain ⟨r, hr, c, hc, hb⟩ := hsome
    rw [hvfB, if_pos ⟨rfl, r, List.mem_range.mpr hr, c, hc, by rw [hmem1]; exact hb⟩]
  refine ⟨_, _, _, _, hexec1, hexec2, ?_, ?_⟩
  · exact (updateFn_same (((({ cpu with registers := (updateFn cpu.registers 15 vf1) }).increase_program_counter 2)).registers) 15 vf2).trans hvf21
  · intro r hr c hc hb
    have hbd := hbounds r hr c hc hb
    unfold Mem.fetch_graphics
    rw [if_pos (graphics_index_lt hbd.1 hbd.2)]
    rw [htouch2 r (List.mem_range.mpr hr) c hc (by rw [hmem1]; exact hb)]
    rfl

/-- Witness for C6: the double-draw theorem instantiated at a fresh machine whose
program is the single sprite byte 0x80 drawn by opcode 0xD121 (one row, the lone
set bit landing at pixel (0,0)); all hypotheses hold by computation. -/
theorem C6_witness :
    ∃ cpu1 mem1 cpu2 mem2,
      execute_opcode { Cpu.new with index := 0x200 } (Mem.new.load_program [0x80]).1
        (fun _ => false) 0 0xD121 = .ok (cpu1, mem1) ∧
      execute_opcode cpu1 mem1 (fun _ => false) 0 0xD121 = .ok (cpu2, mem2) ∧
      cpu2.registers 15 = 1 ∧
      ∀ r, r < 0xD121 &&& 0x0F → ∀ c, c < 8 →
        (Mem.new.load_program [0x80]).1.memory
          (({ Cpu.new with index := 0x200 } : Cpu).index + r) &&& (0x80 >>> c) ≠ 0 →
        mem2.fetch_graphics
          (({ Cpu.new with index := 0x200 } : Cpu).registers ((0xD121 >>> 8) &&& 0x0F) + c)
          (({ Cpu.new with index := 0x200 } : Cpu).registers ((0xD121 >>> 4) &&& 0x0F) + r) =
          .ok 0 :=
  C6_double_draw { Cpu.new with index := 0x200 } (Mem.new.load_program [0x80]).1
    (fun _ => false) 0 0xD121
    (by decide) (by decide) (by decide) (by decide) (by decide) (by decide) (by decide)


end Knocket
